import Mathlib

/-!
Shallow embedding of the VictoriaMetrics operator core that the claims
concern: the `VMRuleReconciler.Reconcile` pass (controller source file),
and `RunManager` / `configureTLS` / `getClientCacheOptions` and the
readiness check from `internal/manager/manager.go`.

External collaborators (the Kubernetes client, the selector matcher
`isSelectorsMatchesTargetCRD`, the materializer
`vmalert.CreateOrUpdateRuleConfigMaps`, the rate limiter) are modelled as
oracles supplied in an environment record; the reconciler records which
collaborators it invokes in an event trace so that claims about calls
being made or skipped are statable.
-/

namespace Operator

/-- The target resource of a `VMRuleReconciler.Reconcile` pass.
`hasDeletionTimestamp = true` models `instance.DeletionTimestamp` being
non-zero (the object is being deleted). -/
structure VMRule where
  name : String
  hasDeletionTimestamp : Bool
deriving DecidableEq, Repr

/-- A candidate parent object enumerated during a reconcile pass.
`hasDeletionTimestamp = true` models `DeletionTimestamp != nil`;
`parsingError` models `Spec.ParsingError`; `selectAllByDefault` models
`Spec.SelectAllByDefault`. The selector fields themselves are opaque:
matcher outcomes are supplied by the environment oracle. -/
structure VMAlert where
  name : String
  namespaceName : String
  hasDeletionTimestamp : Bool
  parsingError : String
  selectAllByDefault : Bool
deriving DecidableEq, Repr

/-- Outcome of `r.Get(ctx, req.NamespacedName, instance)`. -/
inductive GetOutcome where
  | found (inst : VMRule)
  | notFound
  | failure (msg : String)

/-- Environment of one reconcile invocation: outcomes of every external
call the reconcile body can make. -/
structure ReconcileEnv where
  getOutcome : GetOutcome
  mustThrottle : Bool
  listOutcome : Except String (List VMAlert)
  matcherResult : VMRule → VMAlert → Except String Bool
  materializeResult : VMAlert → Except String Unit

/-- Observable side effects of a reconcile pass, in execution order. -/
inductive RecEvent where
  | listCalled
  | matcherCalled (a : VMAlert)
  | materializeCalled (a : VMAlert)
deriving DecidableEq, Repr

/-- `ctrl.Result`: requeue directives returned by a reconcile. -/
structure CtrlResult where
  requeue : Bool
  requeueAfter : Nat
deriving DecidableEq, Repr

/-- The zero `ctrl.Result{}`: no requeue requested. -/
def CtrlResult.empty : CtrlResult := ⟨false, 0⟩

/-- Classified error returned by the reconcile body (before the deferred
error handler). `getError true` is the wrapped not-found get error. -/
inductive ReconcileError where
  | getError (isNotFound : Bool) (msg : String)
  | listError (msg : String)
  | materializeError (msg : String)
deriving DecidableEq, Repr

/-- The candidate-skip test at the top of the loop body:
`vmalertItem.DeletionTimestamp != nil || vmalertItem.Spec.ParsingError != ""`. -/
def skipCandidate (a : VMAlert) : Bool :=
  a.hasDeletionTimestamp || a.parsingError != ""

/-- The per-candidate loop of `VMRuleReconciler.Reconcile`, returning the
events emitted and the error that aborted the pass, if any.  Mirrors the
source: skip deleted / parse-poisoned candidates; when the target is not
being deleted and the candidate does not select all by default, consult
the matcher (error ⇒ log and continue, no match ⇒ continue); otherwise
materialize, and a materializer error aborts the remaining pass. -/
def processCandidates (env : ReconcileEnv) (inst : VMRule) :
    List VMAlert → List RecEvent × Option ReconcileError
  | [] => ([], none)
  | a :: rest =>
    if skipCandidate a then
      processCandidates env inst rest
    else if !inst.hasDeletionTimestamp && !a.selectAllByDefault then
      match env.matcherResult inst a with
      | .error _ =>
        let r := processCandidates env inst rest
        (.matcherCalled a :: r.1, r.2)
      | .ok false =>
        let r := processCandidates env inst rest
        (.matcherCalled a :: r.1, r.2)
      | .ok true =>
        match env.materializeResult a with
        | .error msg =>
          ([.matcherCalled a, .materializeCalled a], some (.materializeError msg))
        | .ok _ =>
          let r := processCandidates env inst rest
          (.matcherCalled a :: .materializeCalled a :: r.1, r.2)
    else
      match env.materializeResult a with
      | .error msg => ([.materializeCalled a], some (.materializeError msg))
      | .ok _ =>
        let r := processCandidates env inst rest
        (.materializeCalled a :: r.1, r.2)

/-- The body of `VMRuleReconciler.Reconcile` before the deferred error
handler: fetch, throttle gate, list, candidate loop.  All return paths of
the source return the zero `ctrl.Result`. -/
def reconcileRaw (env : ReconcileEnv) :
    CtrlResult × Option ReconcileError × List RecEvent :=
  match env.getOutcome with
  | .notFound => (CtrlResult.empty, some (.getError true "vmrule"), [])
  | .failure msg => (CtrlResult.empty, some (.getError false msg), [])
  | .found inst =>
    if env.mustThrottle then (CtrlResult.empty, none, [])
    else
      match env.listOutcome with
      | .error msg => (CtrlResult.empty, some (.listError msg), [.listCalled])
      | .ok items =>
        let r := processCandidates env inst items
        (CtrlResult.empty, r.2, .listCalled :: r.1)

/-- Modelled from the spec: `handleReconcileErr` (deferred in the source,
its definition is not part of the provided sources).  Per the spec's
error taxonomy, a not-found fetch is terminal success (no error, no
requeue); every other error is surfaced unchanged as retryable. -/
def handleReconcileErr :
    CtrlResult × Option ReconcileError → CtrlResult × Option ReconcileError
  | (_, some (.getError true _)) => (CtrlResult.empty, none)
  | (res, e) => (res, e)

/-- `VMRuleReconciler.Reconcile`: the body followed by the deferred error
handler, together with the trace of collaborator invocations. -/
def reconcile (env : ReconcileEnv) :
    CtrlResult × Option ReconcileError × List RecEvent :=
  let r := reconcileRaw env
  let h := handleReconcileErr (r.1, r.2.1)
  (h.1, h.2, r.2.2)

/-- Whether the loop body will reach the materializer call for candidate
`a` (assuming `a` is not skipped): either the target is being deleted, or
the candidate selects all by default, or the matcher affirms the match. -/
def willMaterialize (env : ReconcileEnv) (inst : VMRule) (a : VMAlert) : Bool :=
  if !inst.hasDeletionTimestamp && !a.selectAllByDefault then
    match env.matcherResult inst a with
    | .ok true => true
    | _ => false
  else true

/-! Helper lemmas about the reconcile pass. -/

/-- When the target is being deleted, the per-candidate loop never emits a
matcher invocation. -/
lemma matcherCalled_not_mem_of_deleted (env : ReconcileEnv) (inst : VMRule)
    (hdel : inst.hasDeletionTimestamp = true) (b : VMAlert) :
    ∀ items, RecEvent.matcherCalled b ∉ (processCandidates env inst items).1 := by
  intro items
  induction items with
  | nil => simp [processCandidates]
  | cons a rest ih =>
    by_cases hs : skipCandidate a = true
    · simpa [processCandidates, hs] using ih
    · rw [Bool.not_eq_true] at hs
      cases hm : env.materializeResult a with
      | error msg => simp [processCandidates, hs, hdel, hm]
      | ok u => simp [processCandidates, hs, hdel, hm, ih]

/-- Splitting the candidate list: when every non-skipped candidate of the
prefix that reaches the materializer succeeds, processing `pre ++ rest`
is processing `pre` (events only) followed by processing `rest`. -/
lemma processCandidates_append (env : ReconcileEnv) (inst : VMRule) :
    ∀ (pre rest : List VMAlert),
    (∀ b ∈ pre, skipCandidate b = false → willMaterialize env inst b = true →
      env.materializeResult b = .ok ()) →
    processCandidates env inst (pre ++ rest) =
      ((processCandidates env inst pre).1 ++ (processCandidates env inst rest).1,
       (processCandidates env inst rest).2) := by
  intro pre
  induction pre with
  | nil => intro rest _; simp [processCandidates]
  | cons a pre ih =>
    intro rest h
    have ha := h a (List.mem_cons_self a pre)
    have h' : ∀ b ∈ pre, skipCandidate b = false →
        willMaterialize env inst b = true → env.materializeResult b = .ok () :=
      fun b hb => h b (List.mem_cons_of_mem a hb)
    by_cases hs : skipCandidate a = true
    · simp [processCandidates, hs, ih rest h']
    · rw [Bool.not_eq_true] at hs
      by_cases hd : (!inst.hasDeletionTimestamp && !a.selectAllByDefault) = true
      · cases hm : env.matcherResult inst a with
        | error msg => simp [processCandidates, hs, hd, hm, ih rest h']
        | ok v =>
          cases v with
          | false => simp [processCandidates, hs, hd, hm, ih rest h']
          | true =>
            have hw : willMaterialize env inst a = true := by
              simp [willMaterialize, hd, hm]
            have hmat := ha hs hw
            simp [processCandidates, hs, hd, hm, hmat, ih rest h']
      · rw [Bool.not_eq_true] at hd
        have hw : willMaterialize env inst a = true := by
          simp [willMaterialize, hd]
        have hmat := ha hs hw
        simp [processCandidates, hs, hd, hmat, ih rest h']

/-- A candidate that the skip test rejects is never mentioned by any
matcher or materializer event of the loop. -/
lemma skipped_candidate_no_events (env : ReconcileEnv) (inst : VMRule)
    (a : VMAlert) (hskip : skipCandidate a = true) :
    ∀ items, RecEvent.matcherCalled a ∉ (processCandidates env inst items).1 ∧
      RecEvent.materializeCalled a ∉ (processCandidates env inst items).1 := by
  intro items
  induction items with
  | nil => simp [processCandidates]
  | cons b rest ih =>
    by_cases hb : skipCandidate b = true
    · simpa [processCandidates, hb] using ih
    · have hne : a ≠ b := by
        intro he; rw [he] at hskip
        exact absurd hskip (by simpa using hb)
      rw [Bool.not_eq_true] at hb
      by_cases hd : (!inst.hasDeletionTimestamp && !b.selectAllByDefault) = true
      · cases hm : env.matcherResult inst b with
        | error msg => simp [processCandidates, hb, hd, hm, hne, ih]
        | ok v =>
          cases v with
          | false => simp [processCandidates, hb, hd, hm, hne, ih]
          | true =>
            cases hmat : env.materializeResult b with
            | error msg => simp [processCandidates, hb, hd, hm, hmat, hne]
            | ok u => simp [processCandidates, hb, hd, hm, hmat, hne, ih]
      · rw [Bool.not_eq_true] at hd
        cases hmat : env.materializeResult b with
        | error msg => simp [processCandidates, hb, hd, hmat, hne]
        | ok u => simp [processCandidates, hb, hd, hmat, hne, ih]

/-- On the main path (target found, not throttled, list succeeded) the
trace is the list call followed by the loop's events. -/
lemma reconcile_trace (env : ReconcileEnv) (inst : VMRule) (items : List VMAlert)
    (hg : env.getOutcome = .found inst) (ht : env.mustThrottle = false)
    (hl : env.listOutcome = .ok items) :
    (reconcile env).2.2 = .listCalled :: (processCandidates env inst items).1 := by
  simp [reconcile, reconcileRaw, hg, ht, hl]

/-- On the main path the returned error is the loop's error filtered
through the deferred handler. -/
lemma reconcile_err (env : ReconcileEnv) (inst : VMRule) (items : List VMAlert)
    (hg : env.getOutcome = .found inst) (ht : env.mustThrottle = false)
    (hl : env.listOutcome = .ok items) :
    (reconcile env).2.1 =
      (handleReconcileErr (CtrlResult.empty, (processCandidates env inst items).2)).2 := by
  simp [reconcile, reconcileRaw, hg, ht, hl]

/-! Concrete objects used by witnesses and counterexamples. -/

/-- A target rule that is not being deleted. -/
def instLive : VMRule := ⟨"r1", false⟩

/-- A target rule that carries a deletion marker. -/
def instDel : VMRule := ⟨"r1", true⟩

/-- A candidate parent that is itself being deleted. -/
def aPoisoned : VMAlert := ⟨"a0", "ns1", true, "", false⟩

/-- A healthy candidate with `SelectAllByDefault = true`. -/
def bOk : VMAlert := ⟨"b1", "ns1", false, "", true⟩

/-- A healthy candidate with `SelectAllByDefault = true` whose
materializer call is made to fail in some environments below. -/
def aFail : VMAlert := ⟨"a1", "ns1", false, "", true⟩

/-- A healthy candidate with `SelectAllByDefault = false`. -/
def aSecond : VMAlert := ⟨"a2", "ns1", false, "", false⟩

/-! Claim theorems about the reconcile pass. -/

/-- C2: when the admission gate reports throttling, Reconcile returns
immediately with the zero result and no error, and it performs no list,
no matcher evaluation and no materializer call (the trace is empty), so
no explicit requeue is scheduled. -/
theorem c2_throttled_reconcile_is_silent_success (env : ReconcileEnv) (inst : VMRule)
    (hg : env.getOutcome = .found inst) (ht : env.mustThrottle = true) :
    reconcile env = (CtrlResult.empty, none, []) := by
  simp [reconcile, reconcileRaw, hg, ht, handleReconcileErr]

/-- Environment of a throttled reconcile, used as witness input. -/
def envThrottled : ReconcileEnv :=
  { getOutcome := .found instLive
    mustThrottle := true
    listOutcome := .ok [bOk]
    matcherResult := fun _ _ => .ok true
    materializeResult := fun _ => .ok () }

theorem c2_throttled_reconcile_is_silent_success_witness :
    reconcile envThrottled = (CtrlResult.empty, none, []) :=
  c2_throttled_reconcile_is_silent_success envThrottled instLive rfl rfl

/-- C5: a candidate that carries a deletion marker or a non-empty
parsing-error flag is skipped entirely: no matcher and no materializer
event ever mentions it, in any environment. -/
theorem c5_deleted_or_poisoned_candidate_skipped (env : ReconcileEnv) (a : VMAlert)
    (hskip : skipCandidate a = true) :
    RecEvent.matcherCalled a ∉ (reconcile env).2.2 ∧
    RecEvent.materializeCalled a ∉ (reconcile env).2.2 := by
  cases hg : env.getOutcome with
  | notFound => simp [reconcile, reconcileRaw, hg]
  | failure msg => simp [reconcile, reconcileRaw, hg]
  | found inst =>
    by_cases ht : env.mustThrottle = true
    · simp [reconcile, reconcileRaw, hg, ht]
    · rw [Bool.not_eq_true] at ht
      cases hl : env.listOutcome with
      | error msg => simp [reconcile, reconcileRaw, hg, ht, hl]
      | ok items =>
        have h := skipped_candidate_no_events env inst a hskip items
        rw [reconcile_trace env inst items hg ht hl]
        simp [h.1, h.2]

/-- Environment listing a deleted candidate, used as witness input. -/
def envPoisoned : ReconcileEnv :=
  { getOutcome := .found instLive
    mustThrottle := false
    listOutcome := .ok [aPoisoned, bOk]
    matcherResult := fun _ _ => .ok true
    materializeResult := fun _ => .ok () }

theorem c5_deleted_or_poisoned_candidate_skipped_witness :
    RecEvent.matcherCalled aPoisoned ∉ (reconcile envPoisoned).2.2 ∧
    RecEvent.materializeCalled aPoisoned ∉ (reconcile envPoisoned).2.2 :=
  c5_deleted_or_poisoned_candidate_skipped envPoisoned aPoisoned rfl

/-- C7: a reconcile whose fetch reports not-found is terminal success:
no error, no requeue, and an empty trace (no list, no matching, no
materializer call).  The not-found classification of the deferred error
handler is modelled from the spec. -/
theorem c7_notfound_is_terminal_success (env : ReconcileEnv)
    (hg : env.getOutcome = .notFound) :
    reconcile env = (CtrlResult.empty, none, []) := by
  simp [reconcile, reconcileRaw, hg, handleReconcileErr]

/-- Environment whose fetch reports not-found, used as witness input. -/
def envNotFound : ReconcileEnv :=
  { getOutcome := .notFound
    mustThrottle := false
    listOutcome := .ok [bOk]
    matcherResult := fun _ _ => .ok true
    materializeResult := fun _ => .ok () }

theorem c7_notfound_is_terminal_success_witness :
    reconcile envNotFound = (CtrlResult.empty, none, []) :=
  c7_notfound_is_terminal_success envNotFound rfl

/-- Environment for the C1 counterexample: the target is being deleted,
two healthy candidates are listed, and the first candidate's materializer
call fails, aborting the pass before the second candidate. -/
def envAbortedCleanup : ReconcileEnv :=
  { getOutcome := .found instDel
    mustThrottle := false
    listOutcome := .ok [aFail, aSecond]
    matcherResult := fun _ _ => .ok false
    materializeResult := fun x => if x.selectAllByDefault then .error "boom" else .ok () }

/-- C1 counterexample: with the target deleted, candidate `aSecond` is not
itself deleted and has no parsing error, yet the materializer is not
invoked for it, because the earlier candidate's materializer failure
aborted the pass.  This refutes the claim as stated. -/
theorem c1_counterexample :
    envAbortedCleanup.getOutcome = GetOutcome.found instDel ∧
    instDel.hasDeletionTimestamp = true ∧
    envAbortedCleanup.mustThrottle = false ∧
    envAbortedCleanup.listOutcome = Except.ok [aFail, aSecond] ∧
    aSecond.hasDeletionTimestamp = false ∧
    aSecond.parsingError = "" ∧
    RecEvent.materializeCalled aSecond ∉ (reconcile envAbortedCleanup).2.2 := by
  refine ⟨rfl, rfl, rfl, rfl, rfl, rfl, ?_⟩
  decide

/-- C1 (amended): when the target carries a deletion marker, the matcher
is never invoked, and the materializer is invoked for every candidate
that is not deleted and has no parsing error, provided no earlier
candidate's materializer call in the same pass failed. -/
theorem c1_deleted_target_forces_materialize (env : ReconcileEnv) (inst : VMRule)
    (pre post : List VMAlert) (a : VMAlert)
    (hg : env.getOutcome = .found inst)
    (hdel : inst.hasDeletionTimestamp = true)
    (ht : env.mustThrottle = false)
    (hl : env.listOutcome = .ok (pre ++ a :: post))
    (hpre : ∀ b ∈ pre, skipCandidate b = false → env.materializeResult b = .ok ())
    (ha : skipCandidate a = false) :
    (∀ b, RecEvent.matcherCalled b ∉ (reconcile env).2.2) ∧
    RecEvent.materializeCalled a ∈ (reconcile env).2.2 := by
  have htr := reconcile_trace env inst (pre ++ a :: post) hg ht hl
  have happ := processCandidates_append env inst pre (a :: post)
    (fun b hb hs _ => hpre b hb hs)
  constructor
  · intro b
    rw [htr]
    intro hmem
    rcases List.mem_cons.mp hmem with h | h
    · exact RecEvent.noConfusion h
    · exact matcherCalled_not_mem_of_deleted env inst hdel b _ h
  · have hd : (!inst.hasDeletionTimestamp && !a.selectAllByDefault) = false := by
      simp [hdel]
    have hhead : RecEvent.materializeCalled a ∈ (processCandidates env inst (a :: post)).1 := by
      cases hm : env.materializeResult a with
      | error msg => simp [processCandidates, ha, hd, hm]
      | ok u => simp [processCandidates, ha, hd, hm]
    rw [htr, happ]
    exact List.mem_cons_of_mem _ (List.mem_append_right _ hhead)

/-- Environment for the C1 witness: deleted target, one successful
candidate before the observed one. -/
def envCleanup : ReconcileEnv :=
  { getOutcome := .found instDel
    mustThrottle := false
    listOutcome := .ok [bOk, aSecond]
    matcherResult := fun _ _ => .ok false
    materializeResult := fun _ => .ok () }

theorem c1_deleted_target_forces_materialize_witness :
    RecEvent.matcherCalled aSecond ∉ (reconcile envCleanup).2.2 ∧
    RecEvent.materializeCalled aSecond ∈ (reconcile envCleanup).2.2 :=
  ⟨(c1_deleted_target_forces_materialize envCleanup instDel [bOk] [] aSecond
      rfl rfl rfl rfl (fun _ _ _ => rfl) rfl).1 aSecond,
   (c1_deleted_target_forces_materialize envCleanup instDel [bOk] [] aSecond
      rfl rfl rfl rfl (fun _ _ _ => rfl) rfl).2⟩

/-- C3: a selector-evaluation error isolates only that candidate: the
loop records the matcher call and continues with the remaining
candidates unchanged; and a reconcile in which every materializer call
succeeds returns no error regardless of matcher failures. -/
theorem c3_selector_error_is_isolated :
    (∀ (env : ReconcileEnv) (inst : VMRule) (a : VMAlert)
       (rest : List VMAlert) (msg : String),
      skipCandidate a = false → inst.hasDeletionTimestamp = false →
      a.selectAllByDefault = false → env.matcherResult inst a = .error msg →
      processCandidates env inst (a :: rest) =
        (RecEvent.matcherCalled a :: (processCandidates env inst rest).1,
         (processCandidates env inst rest).2)) ∧
    (∀ (env : ReconcileEnv) (inst : VMRule) (items : List VMAlert),
      env.getOutcome = .found inst → env.mustThrottle = false →
      env.listOutcome = .ok items →
      (∀ b ∈ items, env.materializeResult b = .ok ()) →
      (reconcile env).2.1 = none) := by
  constructor
  · intro env inst a rest msg hs hd hsel hm
    simp [processCandidates, hs, hd, hsel, hm]
  · intro env inst items hg ht hl hmat
    have hloop : ∀ its : List VMAlert,
        (∀ b ∈ its, env.materializeResult b = .ok ()) →
        (processCandidates env inst its).2 = none := by
      intro its
      induction its with
      | nil => intro _; simp [processCandidates]
      | cons b rest ih =>
        intro h
        have hb := h b (List.mem_cons_self b rest)
        have h' : ∀ c ∈ rest, env.materializeResult c = .ok () :=
          fun c hc => h c (List.mem_cons_of_mem b hc)
        by_cases hsb : skipCandidate b = true
        · simpa [processCandidates, hsb] using ih h'
        · rw [Bool.not_eq_true] at hsb
          by_cases hdb : (!inst.hasDeletionTimestamp && !b.selectAllByDefault) = true
          · cases hmb : env.matcherResult inst b with
            | error m => simp [processCandidates, hsb, hdb, hmb, ih h']
            | ok v =>
              cases v with
              | false => simp [processCandidates, hsb, hdb, hmb, ih h']
              | true => simp [processCandidates, hsb, hdb, hmb, hb, ih h']
          · rw [Bool.not_eq_true] at hdb
            simp [processCandidates, hsb, hdb, hb, ih h']
    rw [reconcile_err env inst items hg ht hl, hloop items hmat]
    rfl

/-- Environment for the C3 witness: the matcher always fails, every
materializer call would succeed. -/
def envBadSelector : ReconcileEnv :=
  { getOutcome := .found instLive
    mustThrottle := false
    listOutcome := .ok [aSecond]
    matcherResult := fun _ _ => .error "bad selector"
    materializeResult := fun _ => .ok () }

theorem c3_selector_error_is_isolated_witness :
    processCandidates envBadSelector instLive [aSecond] =
      ([RecEvent.matcherCalled aSecond], none) ∧
    (reconcile envBadSelector).2.1 = none := by
  constructor
  · have h := c3_selector_error_is_isolated.1 envBadSelector instLive aSecond []
      "bad selector" rfl rfl rfl rfl
    simpa [processCandidates] using h
  · exact c3_selector_error_is_isolated.2 envBadSelector instLive [aSecond]
      rfl rfl rfl (fun _ _ => rfl)

/-- C4: a failing materializer call aborts the remaining pass — the
reconcile returns the materializer failure as its (retryable) error, the
trace ends at the failing call with nothing processed after it, and the
events of the candidates already processed are retained unchanged (no
compensating writes appear in the trace). -/
theorem c4_materializer_failure_aborts_pass (env : ReconcileEnv) (inst : VMRule)
    (pre post : List VMAlert) (a : VMAlert) (msg : String)
    (hg : env.getOutcome = .found inst)
    (ht : env.mustThrottle = false)
    (hl : env.listOutcome = .ok (pre ++ a :: post))
    (hpre : ∀ b ∈ pre, skipCandidate b = false → willMaterialize env inst b = true →
      env.materializeResult b = .ok ())
    (ha : skipCandidate a = false)
    (hwm : willMaterialize env inst a = true)
    (herr : env.materializeResult a = .error msg) :
    (reconcile env).2.1 = some (.materializeError msg) ∧
    (reconcile env).2.2 =
      .listCalled :: ((processCandidates env inst pre).1 ++
        (if (!inst.hasDeletionTimestamp && !a.selectAllByDefault) = true
         then [RecEvent.matcherCalled a, RecEvent.materializeCalled a]
         else [RecEvent.materializeCalled a])) := by
  have happ := processCandidates_append env inst pre (a :: post) hpre
  have hhead : processCandidates env inst (a :: post) =
      ((if (!inst.hasDeletionTimestamp && !a.selectAllByDefault) = true
        then [RecEvent.matcherCalled a, RecEvent.materializeCalled a]
        else [RecEvent.materializeCalled a]),
       some (.materializeError msg)) := by
    by_cases hd : (!inst.hasDeletionTimestamp && !a.selectAllByDefault) = true
    · have hm : env.matcherResult inst a = .ok true := by
        cases hm : env.matcherResult inst a with
        | error m => rw [willMaterialize, if_pos hd, hm] at hwm; exact absurd hwm (by simp)
        | ok v =>
          cases v with
          | false => rw [willMaterialize, if_pos hd, hm] at hwm; exact absurd hwm (by simp)
          | true => rfl
      simp [processCandidates, ha, hd, hm, herr]
    · rw [Bool.not_eq_true] at hd
      simp [processCandidates, ha, hd, herr]
  constructor
  · rw [reconcile_err env inst (pre ++ a :: post) hg ht hl, happ, hhead]
    rfl
  · rw [reconcile_trace env inst (pre ++ a :: post) hg ht hl, happ, hhead]

/-- Environment for the C4 witness: one successful select-all candidate,
then a matched candidate whose materializer call fails. -/
def envMatFail : ReconcileEnv :=
  { getOutcome := .found instLive
    mustThrottle := false
    listOutcome := .ok [bOk, aSecond]
    matcherResult := fun _ _ => .ok true
    materializeResult := fun x => if x.selectAllByDefault then .ok () else .error "boom" }

theorem c4_materializer_failure_aborts_pass_witness :
    (reconcile envMatFail).2.1 = some (ReconcileError.materializeError "boom") ∧
    (reconcile envMatFail).2.2 =
      [RecEvent.listCalled, RecEvent.materializeCalled bOk,
       RecEvent.matcherCalled aSecond, RecEvent.materializeCalled aSecond] := by
  have h := c4_materializer_failure_aborts_pass envMatFail instLive [bOk] [] aSecond
    "boom" rfl rfl rfl (fun b hb _ _ => by
      have hbeq : b = bOk := by simpa using hb
      subst hbeq
      rfl) rfl rfl rfl
  refine ⟨h.1, ?_⟩
  rw [h.2]
  decide

/-!
Embedding of `internal/manager/manager.go`: `configureTLS`,
`getClientCacheOptions`, the readiness check closure, and the startup
sequence of `RunManager` with fallible external steps as oracles and an
event trace recording manager creation, ownership bootstrap completion,
dispatcher registration and manager start.
-/

/-- `configureTLS`: panics (modelled as `.error`) when mTLS is requested
without TLS; otherwise returns the number of TLS option functions
appended.  The file-reading panics inside the returned closure happen
only when a closure is later applied, not during `configureTLS`. -/
def configureTLS (mtlsEnable tlsEnable : Bool) : Except String Nat :=
  if mtlsEnable then
    if !tlsEnable then .error "-tls.enable flag must be set before using mtls.enable"
    else .ok 1
  else .ok 0

/-- The supported client objects of `cacheClientObjectsByName`. -/
inductive ClientObject where
  | secret
  | configmap
  | namespaceObject
  | pod
  | deployment
  | statefulset
deriving DecidableEq, Repr

/-- The `cacheClientObjectsByName` lookup table. -/
def cacheClientObjectsByName (name : String) : Option ClientObject :=
  match name with
  | "secret" => some .secret
  | "configmap" => some .configmap
  | "namespace" => some .namespaceObject
  | "pod" => some .pod
  | "deployment" => some .deployment
  | "statefulset" => some .statefulset
  | _ => none

/-- Go's `strings.Split(s, ",")` on the character list of `s`. -/
def splitCommaAux : List Char → List Char → List String
  | [], acc => [String.mk acc.reverse]
  | c :: cs, acc =>
    if c = ',' then String.mk acc.reverse :: splitCommaAux cs []
    else splitCommaAux cs (c :: acc)

/-- Go's `strings.Split(s, ",")`. -/
def splitComma (s : String) : List String := splitCommaAux s.data []

/-- The loop of `getClientCacheOptions`, accumulating `co.DisableFor`. -/
def collectCacheObjects : List String → List ClientObject →
    Except String (List ClientObject)
  | [], acc => .ok acc
  | o :: os, acc =>
    match cacheClientObjectsByName o with
    | none => .error ("not supported client object name=\"" ++ o ++ "\"")
    | some obj => collectCacheObjects os (acc ++ [obj])

/-- `getClientCacheOptions`: empty string means no cache disabling;
otherwise every comma-separated entry must name a supported object. -/
def getClientCacheOptions (disabledCacheObjects : String) :
    Except String (List ClientObject) :=
  if 0 < disabledCacheObjects.length then
    collectCacheObjects (splitComma disabledCacheObjects) []
  else .ok []

/-- The readiness check closure registered with `AddReadyzCheck`, as a
function of the shared `wasCacheSynced` value and of whether the bounded
`WaitForCacheSync` call (only reached on the slow path) reports success.
Returns the new `wasCacheSynced` value, the check outcome (`none` is
success), and whether the cache-sync wait was performed. -/
def readyCheck (wasCacheSynced : Nat) (waitOk : Bool) :
    Nat × Option String × Bool :=
  if wasCacheSynced > 0 then (wasCacheSynced, none, false)
  else if waitOk then (1, none, true)
  else (wasCacheSynced, some "controller sync cache in progress", true)

/-- A sequence of readiness checks threading the shared flag, returning
each check's outcome and whether it waited. -/
def runChecks (s : Nat) : List Bool → List (Option String × Bool)
  | [] => []
  | w :: ws =>
    let r := readyCheck s w
    (r.2.1, r.2.2) :: runChecks r.1 ws

/-- Observable milestones of `RunManager` startup, in execution order. -/
inductive MEvent where
  | managerCreated
  | bootstrapCompleted
  | dispatcherRegistered (kind : String)
  | managerStarted
deriving DecidableEq, Repr

/-- Result of a startup run: the milestone trace and the returned error,
if any. -/
abbrev MResult := List MEvent × Option String

/-- Sequencing: a failing external step returns its error immediately
(contributing no further events); a successful one continues. -/
def andThen (step : Except String Unit) (k : MResult) : MResult :=
  match step with
  | .error e => ([], some e)
  | .ok _ => k

/-- Record a milestone, then continue. -/
def withEvent (ev : MEvent) (k : MResult) : MResult := (ev :: k.1, k.2)

/-- Environment of one `RunManager` run: flag values and the outcome of
every fallible external call, in source order. -/
structure MgrEnv where
  versionFlag : Bool
  printDefaultsFlag : Bool
  printDefaultsResult : Except String Unit
  getConfigOk : Bool
  disableCacheFor : String
  mtlsEnable : Bool
  tlsEnable : Bool
  newManagerResult : Except String Unit
  addReadyzResult : Except String Unit
  addHealthzResult : Except String Unit
  disableCRDOwnership : Bool
  watchNamespaces : List String
  newClientResult : Except String Unit
  initCRDResult : Except String Unit
  enableWebhooks : Bool
  addWebhooksResult : Except String Unit
  setupResult : String → Except String Unit
  newForConfigResult : Except String Unit
  serverVersionResult : Except String Unit
  newWatchClientResult : Except String Unit
  newConverterResult : Except String Unit
  mgrAddResult : Except String Unit
  mgrStartResult : Except String Unit

/-- The per-kind reconcilers registered by `RunManager`, in source
order. -/
def dispatcherKinds : List String :=
  ["VMAgent", "VMAlert", "VMAlertmanager", "VMPodScrape", "VMRule",
   "VMServiceScrape", "VMSingle", "VLogs", "VMCluster", "VMProbe",
   "VMNodeScrape", "VMStaticScrape", "VMScrapeConfig", "VMAuth",
   "VMUser", "VMAlertmanagerConfig"]

/-- Register each dispatcher in order; a failing `SetupWithManager`
returns its error and stops. -/
def registerDispatchers (env : MgrEnv) : List String → MResult → MResult
  | [], k => k
  | d :: ds, k =>
    withEvent (.dispatcherRegistered d)
      (andThen (env.setupResult d) (registerDispatchers env ds k))

/-- The tail of `RunManager` after dispatcher registration: converter
client construction, server-version query, watch client, converter
controller, `mgr.Add`, `mgr.Start`. -/
def runManagerTail (env : MgrEnv) : MResult :=
  andThen env.newForConfigResult
    (andThen env.serverVersionResult
      (andThen env.newWatchClientResult
        (andThen env.newConverterResult
          (andThen env.mgrAddResult
            (withEvent .managerStarted
              (andThen env.mgrStartResult ([], none)))))))

/-- Webhook registration (only when enabled), then dispatchers and the
tail. -/
def runManagerFromWebhooks (env : MgrEnv) : MResult :=
  if env.enableWebhooks then
    andThen env.addWebhooksResult
      (registerDispatchers env dispatcherKinds (runManagerTail env))
  else registerDispatchers env dispatcherKinds (runManagerTail env)

/-- The ownership bootstrap block: runs only when CRD ownership is not
disabled and the watch scope is cluster-wide; a client-construction or
`vmv1beta1.Init` failure is returned before any dispatcher registers. -/
def runManagerFromBootstrap (env : MgrEnv) : MResult :=
  if !env.disableCRDOwnership && env.watchNamespaces.isEmpty then
    andThen env.newClientResult
      (andThen env.initCRDResult
        (withEvent .bootstrapCompleted (runManagerFromWebhooks env)))
  else runManagerFromWebhooks env

/-- `RunManager`: flag short-circuits, kubeconfig, cache options, TLS
option construction (evaluated while building the manager options),
manager creation, probe registration, ownership bootstrap, webhooks,
dispatcher registration, converter setup and manager start. -/
def runManager (env : MgrEnv) : MResult :=
  if env.versionFlag then ([], none)
  else if env.printDefaultsFlag then
    andThen env.printDefaultsResult ([], none)
  else if !env.getConfigOk then ([], some "cannot get kubeconfig")
  else
    match getClientCacheOptions env.disableCacheFor with
    | .error e => ([], some ("cannot build cache options for manager: " ++ e))
    | .ok _ =>
      match configureTLS env.mtlsEnable env.tlsEnable with
      | .error e => ([], some e)
      | .ok _ =>
        andThen env.newManagerResult
          (withEvent .managerCreated
            (andThen env.addReadyzResult
              (andThen env.addHealthzResult (runManagerFromBootstrap env))))

/-! Helper lemmas about startup traces. -/

/-- `e1` occurs strictly before every occurrence of `e2` in `l`
(vacuously true when `e2` never occurs). -/
def precedes (e1 e2 : MEvent) (l : List MEvent) : Prop :=
  ∀ l1 l2, l = l1 ++ e2 :: l2 → e1 ∈ l1

lemma precedes_nil (e1 e2 : MEvent) : precedes e1 e2 [] := by
  intro l1 l2 h
  exact absurd h (by simp)

lemma precedes_cons_of (e1 e2 a : MEvent) (t : List MEvent) (hne : e2 ≠ a)
    (h : e1 = a ∨ precedes e1 e2 t) : precedes e1 e2 (a :: t) := by
  intro l1 l2 hl
  cases l1 with
  | nil =>
    rw [List.nil_append] at hl
    injection hl with hax _
    exact absurd hax.symm hne
  | cons x l1' =>
    rw [List.cons_append] at hl
    injection hl with hax ht
    rcases h with he | hp
    · rw [he, hax]
      exact List.mem_cons_self x l1'
    · exact List.mem_cons_of_mem x (hp l1' l2 ht)

lemma precedes_andThen (e1 e2 : MEvent) (step : Except String Unit) (k : MResult)
    (h : precedes e1 e2 k.1) : precedes e1 e2 (andThen step k).1 := by
  cases step with
  | error e => exact precedes_nil e1 e2
  | ok u => exact h

lemma precedes_withEvent (e1 e2 ev : MEvent) (k : MResult) (hne : e2 ≠ ev)
    (h : e1 = ev ∨ precedes e1 e2 k.1) : precedes e1 e2 (withEvent ev k).1 :=
  precedes_cons_of e1 e2 ev k.1 hne h

lemma mem_of_mem_andThen (e : MEvent) (step : Except String Unit) (k : MResult)
    (h : e ∈ (andThen step k).1) : e ∈ k.1 := by
  cases step with
  | error m => exact absurd h (List.not_mem_nil e)
  | ok u => exact h

lemma mem_registerDispatchers (env : MgrEnv) (e : MEvent) :
    ∀ (ds : List String) (k : MResult), e ∈ (registerDispatchers env ds k).1 →
    (∃ d, e = .dispatcherRegistered d) ∨ e ∈ k.1 := by
  intro ds
  induction ds with
  | nil => intro k h; exact Or.inr h
  | cons d ds ih =>
    intro k h
    simp only [registerDispatchers, withEvent] at h
    rcases List.mem_cons.mp h with he | h'
    · exact Or.inl ⟨d, he⟩
    · exact ih k (mem_of_mem_andThen e _ _ h')

/-- The post-dispatcher tail never records a bootstrap completion. -/
lemma bootstrap_not_mem_tail (env : MgrEnv) :
    MEvent.bootstrapCompleted ∉ (runManagerTail env).1 := by
  intro h
  replace h := mem_of_mem_andThen _ _ _ (mem_of_mem_andThen _ _ _
    (mem_of_mem_andThen _ _ _ (mem_of_mem_andThen _ _ _
      (mem_of_mem_andThen _ _ _ h))))
  simp only [withEvent] at h
  rcases List.mem_cons.mp h with he | h'
  · exact MEvent.noConfusion he
  · exact absurd (mem_of_mem_andThen _ _ _ h') (List.not_mem_nil _)

/-- Webhook and dispatcher registration never record a bootstrap
completion. -/
lemma bootstrap_not_mem_fromWebhooks (env : MgrEnv) :
    MEvent.bootstrapCompleted ∉ (runManagerFromWebhooks env).1 := by
  intro h
  have hreg : MEvent.bootstrapCompleted ∈
      (registerDispatchers env dispatcherKinds (runManagerTail env)).1 := by
    by_cases hw : env.enableWebhooks = true
    · rw [runManagerFromWebhooks, if_pos hw] at h
      exact mem_of_mem_andThen _ _ _ h
    · rw [runManagerFromWebhooks, if_neg hw] at h
      exact h
  rcases mem_registerDispatchers env _ dispatcherKinds _ hreg with ⟨d, he⟩ | h'
  · exact MEvent.noConfusion he
  · exact bootstrap_not_mem_tail env h'

/-- On the main path (no short-circuit flag, kubeconfig, cache options
and TLS options all fine) `RunManager` is manager creation, probe
registration, then the bootstrap block and the rest. -/
lemma runManager_main (env : MgrEnv) (hv : env.versionFlag = false)
    (hp : env.printDefaultsFlag = false) (hg : env.getConfigOk = true)
    (l : List ClientObject)
    (hc : getClientCacheOptions env.disableCacheFor = .ok l)
    (n : Nat) (htls : configureTLS env.mtlsEnable env.tlsEnable = .ok n) :
    runManager env =
      andThen env.newManagerResult
        (withEvent .managerCreated
          (andThen env.addReadyzResult
            (andThen env.addHealthzResult (runManagerFromBootstrap env)))) := by
  simp [runManager, hv, hp, hg, hc, htls]

/-- C6: the ownership bootstrap completes only when CRD ownership is
enabled and the watch scope is cluster-wide; under that configuration
its completion precedes every dispatcher registration in the startup
trace; and a failure of either bootstrap step (client construction or
`vmv1beta1.Init`) makes `RunManager` return that error with no
dispatcher registered. -/
theorem c6_bootstrap_before_dispatchers (env : MgrEnv) :
    (MEvent.bootstrapCompleted ∈ (runManager env).1 →
      env.disableCRDOwnership = false ∧ env.watchNamespaces = []) ∧
    (env.disableCRDOwnership = false → env.watchNamespaces = [] →
      ∀ k, precedes .bootstrapCompleted (.dispatcherRegistered k) (runManager env).1) ∧
    (∀ (msg : String) (l : List ClientObject) (n : Nat),
      env.versionFlag = false → env.printDefaultsFlag = false →
      env.getConfigOk = true →
      getClientCacheOptions env.disableCacheFor = .ok l →
      configureTLS env.mtlsEnable env.tlsEnable = .ok n →
      env.newManagerResult = .ok () →
      env.addReadyzResult = .ok () →
      env.addHealthzResult = .ok () →
      env.disableCRDOwnership = false → env.watchNamespaces = [] →
      (env.newClientResult = .error msg ∨
        (env.newClientResult = .ok () ∧ env.initCRDResult = .error msg)) →
      runManager env = ([MEvent.managerCreated], some msg)) := by
  refine ⟨?parta, ?partb, ?partc⟩
  case parta =>
    intro h
    by_cases hcond : (!env.disableCRDOwnership && env.watchNamespaces.isEmpty) = true
    · rcases Bool.and_eq_true_iff.mp hcond with ⟨h1, h2⟩
      exact ⟨by simpa using h1, List.isEmpty_iff.mp h2⟩
    · exfalso
      by_cases hv : env.versionFlag = true
      · simp [runManager, hv] at h
      · rw [Bool.not_eq_true] at hv
        by_cases hp : env.printDefaultsFlag = true
        · cases hpr : env.printDefaultsResult with
          | error e => simp [runManager, hv, hp, andThen, hpr] at h
          | ok u => simp [runManager, hv, hp, andThen, hpr] at h
        · rw [Bool.not_eq_true] at hp
          by_cases hg : env.getConfigOk = true
          · cases hc : getClientCacheOptions env.disableCacheFor with
            | error e => simp [runManager, hv, hp, hg, hc] at h
            | ok l =>
              cases htls : configureTLS env.mtlsEnable env.tlsEnable with
              | error e => simp [runManager, hv, hp, hg, hc, htls] at h
              | ok n =>
                rw [runManager_main env hv hp hg l hc n htls] at h
                replace h := mem_of_mem_andThen _ _ _ h
                simp only [withEvent] at h
                rcases List.mem_cons.mp h with he | h'
                · exact MEvent.noConfusion he
                · replace h' := mem_of_mem_andThen _ _ _ (mem_of_mem_andThen _ _ _ h')
                  rw [runManagerFromBootstrap, if_neg hcond] at h'
                  exact bootstrap_not_mem_fromWebhooks env h'
          · rw [Bool.not_eq_true] at hg
            simp [runManager, hv, hp, hg] at h
  case partb =>
    intro hd hw k
    have hcond : (!env.disableCRDOwnership && env.watchNamespaces.isEmpty) = true := by
      simp [hd, hw]
    have hne1 : MEvent.dispatcherRegistered k ≠ MEvent.managerCreated := by
      intro h; exact MEvent.noConfusion h
    have hne2 : MEvent.dispatcherRegistered k ≠ MEvent.bootstrapCompleted := by
      intro h; exact MEvent.noConfusion h
    by_cases hv : env.versionFlag = true
    · have hr : runManager env = ([], none) := by simp [runManager, hv]
      rw [hr]
      exact precedes_nil _ _
    · rw [Bool.not_eq_true] at hv
      by_cases hp : env.printDefaultsFlag = true
      · cases hpr : env.printDefaultsResult with
        | error e =>
          have hr : runManager env = ([], some e) := by
            simp [runManager, hv, hp, andThen, hpr]
          rw [hr]
          exact precedes_nil _ _
        | ok u =>
          have hr : runManager env = ([], none) := by
            simp [runManager, hv, hp, andThen, hpr]
          rw [hr]
          exact precedes_nil _ _
      · rw [Bool.not_eq_true] at hp
        by_cases hg : env.getConfigOk = true
        · cases hc : getClientCacheOptions env.disableCacheFor with
          | error e =>
            have hr : (runManager env).1 = [] := by simp [runManager, hv, hp, hg, hc]
            rw [hr]
            exact precedes_nil _ _
          | ok l =>
            cases htls : configureTLS env.mtlsEnable env.tlsEnable with
            | error e =>
              have hr : (runManager env).1 = [] := by
                simp [runManager, hv, hp, hg, hc, htls]
              rw [hr]
              exact precedes_nil _ _
            | ok n =>
              rw [runManager_main env hv hp hg l hc n htls]
              apply precedes_andThen
              apply precedes_withEvent _ _ _ _ hne1
              refine Or.inr ?_
              apply precedes_andThen
              apply precedes_andThen
              rw [runManagerFromBootstrap, if_pos hcond]
              apply precedes_andThen
              apply precedes_andThen
              exact precedes_withEvent _ _ _ _ hne2 (Or.inl rfl)
        · rw [Bool.not_eq_true] at hg
          have hr : (runManager env).1 = [] := by simp [runManager, hv, hp, hg]
          rw [hr]
          exact precedes_nil _ _
  case partc =>
    intro msg l n hv hp hg hc htls hnm hrd hhl hd hw hfail
    have hcond : (!env.disableCRDOwnership && env.watchNamespaces.isEmpty) = true := by
      simp [hd, hw]
    rw [runManager_main env hv hp hg l hc n htls, hnm]
    rcases hfail with hnc | ⟨hnc, hic⟩
    · simp [andThen, withEvent, hrd, hhl, runManagerFromBootstrap, hd, hw, hnc]
    · simp [andThen, withEvent, hrd, hhl, runManagerFromBootstrap, hd, hw, hnc, hic]

/-- Environment for the C6 witness: bootstrap enabled, cluster-wide
scope, `vmv1beta1.Init` fails. -/
def envBootstrapFail : MgrEnv :=
  { versionFlag := false
    printDefaultsFlag := false
    printDefaultsResult := .ok ()
    getConfigOk := true
    disableCacheFor := ""
    mtlsEnable := false
    tlsEnable := false
    newManagerResult := .ok ()
    addReadyzResult := .ok ()
    addHealthzResult := .ok ()
    disableCRDOwnership := false
    watchNamespaces := []
    newClientResult := .ok ()
    initCRDResult := .error "cannot init crd data"
    enableWebhooks := false
    addWebhooksResult := .ok ()
    setupResult := fun _ => .ok ()
    newForConfigResult := .ok ()
    serverVersionResult := .ok ()
    newWatchClientResult := .ok ()
    newConverterResult := .ok ()
    mgrAddResult := .ok ()
    mgrStartResult := .ok () }

theorem c6_bootstrap_before_dispatchers_witness :
    runManager envBootstrapFail = ([MEvent.managerCreated], some "cannot init crd data") :=
  (c6_bootstrap_before_dispatchers envBootstrapFail).2.2 "cannot init crd data" [] 0
    rfl rfl rfl rfl rfl rfl rfl rfl rfl rfl (Or.inr ⟨rfl, rfl⟩)

/-- C8: enabling mutual TLS without TLS makes `configureTLS` panic, and
a startup reaching the TLS configuration step (flags and cache options
fine) aborts with that panic before creating the manager — the trace is
empty, so nothing is served and no dispatcher registers. -/
theorem c8_mtls_requires_tls (env : MgrEnv)
    (hm : env.mtlsEnable = true) (htl : env.tlsEnable = false) :
    configureTLS env.mtlsEnable env.tlsEnable =
      .error "-tls.enable flag must be set before using mtls.enable" ∧
    (env.versionFlag = false → env.printDefaultsFlag = false →
      env.getConfigOk = true →
      ∀ l : List ClientObject, getClientCacheOptions env.disableCacheFor = .ok l →
      runManager env =
        ([], some "-tls.enable flag must be set before using mtls.enable")) := by
  have hcfg : configureTLS env.mtlsEnable env.tlsEnable =
      .error "-tls.enable flag must be set before using mtls.enable" := by
    rw [hm, htl]
    rfl
  refine ⟨hcfg, ?_⟩
  intro hv hp hg l hc
  simp [runManager, hv, hp, hg, hc, hcfg]

/-- Environment for the C8 witness: mTLS enabled without TLS. -/
def envMtlsMisconfigured : MgrEnv :=
  { envBootstrapFail with
      mtlsEnable := true
      tlsEnable := false
      initCRDResult := .ok () }

theorem c8_mtls_requires_tls_witness :
    runManager envMtlsMisconfigured =
      ([], some "-tls.enable flag must be set before using mtls.enable") :=
  (c8_mtls_requires_tls envMtlsMisconfigured rfl rfl).2 rfl rfl rfl [] rfl

/-- C9: the readiness check is latching — with the synced flag set it
succeeds immediately without waiting and leaves the flag unchanged, a
successful check always leaves the flag set, the flag never decreases,
and after any successful check every subsequent check in a run succeeds
immediately without waiting on cache sync. -/
theorem c9_readiness_check_latches (s : Nat) (w : Bool) (ws : List Bool) :
    (s > 0 → readyCheck s w = (s, none, false)) ∧
    ((readyCheck s w).2.1 = none → 0 < (readyCheck s w).1) ∧
    s ≤ (readyCheck s w).1 ∧
    ((readyCheck s w).2.1 = none →
      runChecks (readyCheck s w).1 ws = ws.map (fun _ => (none, false))) := by
  have hrun : ∀ (t : Nat) (ws' : List Bool), 0 < t →
      runChecks t ws' = ws'.map (fun _ => (none, false)) := by
    intro t ws'
    induction ws' with
    | nil => intro _; rfl
    | cons x xs ih =>
      intro ht
      simp [runChecks, readyCheck, ht, ih ht]
  have hpos : (readyCheck s w).2.1 = none → 0 < (readyCheck s w).1 := by
    intro hnone
    by_cases hs : s > 0
    · simp [readyCheck, hs]
    · by_cases hw : w = true
      · simp [readyCheck, hs, hw]
      · rw [Bool.not_eq_true] at hw
        simp [readyCheck, hs, hw] at hnone
  refine ⟨?_, hpos, ?_, ?_⟩
  · intro hs
    simp [readyCheck, hs]
  · by_cases hs : s > 0
    · simp [readyCheck, hs]
    · have hs0 : s = 0 := Nat.eq_zero_of_not_pos hs
      subst hs0
      exact Nat.zero_le _
  · intro hnone
    exact hrun _ ws (hpos hnone)

theorem c9_readiness_check_latches_witness :
    0 < (readyCheck 0 true).1 ∧
    runChecks (readyCheck 0 true).1 [false, true] = [(none, false), (none, false)] := by
  have h := c9_readiness_check_latches 0 true [false, true]
  refine ⟨h.2.1 rfl, ?_⟩
  rw [h.2.2.2 rfl]
  rfl

/-- Any string other than `""` has a positive length. -/
lemma length_pos_of_ne_empty (s : String) (h : s ≠ "") : 0 < s.length := by
  cases s with
  | mk data =>
    cases data with
    | nil => exact absurd rfl h
    | cons a t => simp [String.length]

/-- An unsupported name anywhere in the entry list makes the collection
loop fail. -/
lemma collectCacheObjects_error (e : String) (hbad : cacheClientObjectsByName e = none) :
    ∀ (l : List String) (acc : List ClientObject), e ∈ l →
    ∃ msg, collectCacheObjects l acc = .error msg := by
  intro l
  induction l with
  | nil => intro acc h; exact absurd h (List.not_mem_nil e)
  | cons o os ih =>
    intro acc h
    cases ho : cacheClientObjectsByName o with
    | none =>
      exact ⟨"not supported client object name=\"" ++ o ++ "\"",
        by simp [collectCacheObjects, ho]⟩
    | some obj =>
      rcases List.mem_cons.mp h with he | h'
      · rw [he] at hbad
        rw [hbad] at ho
        exact Option.noConfusion ho
      · have := ih (acc ++ [obj]) h'
        simpa [collectCacheObjects, ho] using this

/-- C10: a non-empty cache-disable string containing an entry outside
the supported set makes `getClientCacheOptions` fail, and `RunManager`
then aborts with that failure before creating the manager (empty trace);
the empty string configures no cache disabling. -/
theorem c10_cache_disable_validation (s e : String)
    (hne : s ≠ "") (hmem : e ∈ splitComma s)
    (hbad : cacheClientObjectsByName e = none) :
    (∃ msg, getClientCacheOptions s = .error msg) ∧
    (∀ env : MgrEnv, env.versionFlag = false → env.printDefaultsFlag = false →
      env.getConfigOk = true → env.disableCacheFor = s →
      ∃ msg, runManager env = ([], some msg)) ∧
    getClientCacheOptions "" = .ok [] := by
  have herr : ∃ msg, getClientCacheOptions s = .error msg := by
    obtain ⟨msg, hmsg⟩ := collectCacheObjects_error e hbad (splitComma s) [] hmem
    refine ⟨msg, ?_⟩
    rw [getClientCacheOptions, if_pos (length_pos_of_ne_empty s hne)]
    exact hmsg
  refine ⟨herr, ?_, rfl⟩
  intro env hv hp hg hd
  obtain ⟨msg, hmsg⟩ := herr
  rw [← hd] at hmsg
  exact ⟨"cannot build cache options for manager: " ++ msg,
    by simp [runManager, hv, hp, hg, hmsg]⟩

theorem c10_cache_disable_validation_witness :
    (∃ msg, getClientCacheOptions "pod,foo" = .error msg) ∧
    getClientCacheOptions "" = .ok [] := by
  have h := c10_cache_disable_validation "pod,foo" "foo" (by decide) (by decide)
    (by decide)
  exact ⟨h.1, h.2.2⟩

end Operator
